import Mathlib

/-!
Verification of the VIT GPA calculator core (files `main_advanced.py` and `1.py`).

The embedding models:
* Python dicts mapping grade strings to credit amounts as insertion-ordered
  association lists (`Dist`);
* the grade-point tables of the two source files (`grade_points_adv`,
  `grade_points_v1`);
* the simulation engine (`simulate_improvement`, `simulate_future_courses`),
  with Python exceptions modelled in `Except`;
* the CGPA aggregation functions (`calculate_current_cgpa`,
  `get_grade_distribution`, `calculate_cgpa_from_distribution`), with the
  pandas NaN-poisoning of a failed grade lookup modelled as `Option.none`;
* the normalization pipeline pieces the claims reference: header discovery,
  course-title normalization, synthetic date assignment and date-descending
  deduplication.

Real (float) quantities are modelled as rationals.
-/

namespace VitGpa

/-- A Python dict from grade letters to credit amounts, kept as an
insertion-ordered association list, as Python dicts preserve insertion order. -/
abbrev Dist := List (String × ℚ)

/-- Model of Python `d.get(k, 0)`. -/
def dget (d : Dist) (k : String) : ℚ := (d.lookup k).getD 0

/-- Model of Python `k in d`. -/
def dmem (d : Dist) (k : String) : Bool := (d.lookup k).isSome

/-- Model of Python `d[k] = v`: replace the value when the key is present,
append a new entry otherwise. -/
def dset (d : Dist) (k : String) (v : ℚ) : Dist :=
  if dmem d k then d.map (fun p => if p.1 = k then (k, v) else p) else d ++ [(k, v)]

/-- The keys of a distribution, in order. -/
def dkeys (d : Dist) : List String := d.map Prod.fst

/-- Total credits held in a distribution: Python `sum(d.values())`. -/
def dtotal (d : Dist) : ℚ := (d.map Prod.snd).sum

/-- The `grade_points` dict of `main_advanced.py` (lines 17-25).  Note that it
has no key for grade P. -/
def grade_points_adv : List (String × ℚ) :=
  [("S", 10), ("A", 9), ("B", 8), ("C", 7), ("D", 6), ("E", 5), ("F", 0)]

/-- The `grade_points` dict of `1.py` (lines 9-18), which maps P to 0. -/
def grade_points_v1 : List (String × ℚ) :=
  [("S", 10), ("A", 9), ("B", 8), ("C", 7), ("D", 6), ("E", 5), ("F", 0), ("P", 0)]

/-- The enumerated grade set of the specification, {S,A,B,C,D,E,F,P}; it is the
list used by the grade filter of `clean_table_data` in both source files. -/
def validGrades : List String := ["S", "A", "B", "C", "D", "E", "F", "P"]

/-- The grade-point values as the specification tabulates them
({10,9,8,7,6,5,0,0} on {S,A,B,C,D,E,F,P}). -/
def specPoints : String → ℚ
  | "S" => 10
  | "A" => 9
  | "B" => 8
  | "C" => 7
  | "D" => 6
  | "E" => 5
  | _ => 0

/-- The exclusion rule applied by every CGPA computation in the source: the
filter `df["grade"] != "P"`. -/
def countsTowardCGPA (g : String) : Bool := g ≠ "P"

/-- Errors raised by the simulation functions.  `invalidGrades` and
`invalidGrade` are the ValueError messages about grades, `insufficientCredits`
the ValueError about the balance, `creditsNotPositive` the positivity
ValueError of `1.py`, and `keyError` the uncaught KeyError that
`new_distribution[from_grade] -= credits` raises in `main_advanced.py`
when `from_grade` has no entry. -/
inductive SimError where
  | invalidGrades (f t : String)
  | invalidGrade (g : String)
  | insufficientCredits (g : String)
  | creditsNotPositive
  | keyError (g : String)
  deriving DecidableEq, Repr

instance {ε α : Type} [DecidableEq ε] [DecidableEq α] :
    DecidableEq (Except ε α) := fun a b =>
  match a, b with
  | .error e, .error e' =>
    if h : e = e' then .isTrue (by rw [h])
    else .isFalse (fun hx => h (by injection hx))
  | .error _, .ok _ => .isFalse (fun hx => Except.noConfusion hx)
  | .ok _, .error _ => .isFalse (fun hx => Except.noConfusion hx)
  | .ok v, .ok v' =>
    if h : v = v' then .isTrue (by rw [h])
    else .isFalse (fun hx => h (by injection hx))

/-- One iteration of the loop of `simulate_improvement` in `main_advanced.py`
(lines 162-168), acting on the working dict `new_distribution`. -/
def improveStep_adv (d : Dist) (c : String × String × ℚ) : Except SimError Dist :=
  let f := c.1
  let t := c.2.1
  let cr := c.2.2
  if (grade_points_adv.lookup f).isNone ∨ (grade_points_adv.lookup t).isNone then
    .error (.invalidGrades f t)
  else if dget d f < cr then
    .error (.insufficientCredits f)
  else if ¬ dmem d f then
    .error (.keyError f)
  else
    let d1 := dset d f (dget d f - cr)
    .ok (dset d1 t (dget d1 t + cr))

/-- The `simulate_improvement` method of `main_advanced.py` (lines 157-169):
copy the input dict, then run the loop, propagating the first raised error. -/
def simulate_improvement_adv (d : Dist) (changes : List (String × String × ℚ)) :
    Except SimError Dist :=
  changes.foldlM improveStep_adv d

/-- One iteration of the loop of `simulate_improvement` in `1.py`
(lines 162-172): it also rejects non-positive credit amounts, and reads the
from-balance with `.get(from_grade, 0)`, so no KeyError can occur. -/
def improveStep_v1 (d : Dist) (c : String × String × ℚ) : Except SimError Dist :=
  let f := c.1
  let t := c.2.1
  let cr := c.2.2
  if (grade_points_v1.lookup f).isNone ∨ (grade_points_v1.lookup t).isNone then
    .error (.invalidGrades f t)
  else if cr ≤ 0 then
    .error .creditsNotPositive
  else if dget d f < cr then
    .error (.insufficientCredits f)
  else
    let d1 := dset d f (dget d f - cr)
    .ok (dset d1 t (dget d1 t + cr))

/-- The distribution-transforming loop of `simulate_improvement` in `1.py`
(lines 161-172); the method itself then returns the CGPA of the result. -/
def simulate_improvement_v1 (d : Dist) (changes : List (String × String × ℚ)) :
    Except SimError Dist :=
  changes.foldlM improveStep_v1 d

/-- One iteration of the loop of `simulate_future_courses` in
`main_advanced.py` (lines 202-205). -/
def futureStep_adv (d : Dist) (c : String × ℚ) : Except SimError Dist :=
  if (grade_points_adv.lookup c.1).isNone then
    .error (.invalidGrade c.1)
  else
    .ok (dset d c.1 (dget d c.1 + c.2))

/-- The `simulate_future_courses` method of `main_advanced.py`
(lines 197-206). -/
def simulate_future_courses_adv (d : Dist) (changes : List (String × ℚ)) :
    Except SimError Dist :=
  changes.foldlM futureStep_adv d

/-- All credit balances of a distribution are non-negative. -/
def allNonneg (d : Dist) : Prop := ∀ p ∈ d, (0 : ℚ) ≤ p.2

instance (d : Dist) : Decidable (allNonneg d) := by
  unfold allNonneg; infer_instance

/-! ## Course records and CGPA aggregation -/

/-- A normalized course record, the row shape `clean_table_data` produces after
its renaming step: credits were coerced with `astype(int)` and the grade passed
the `isin(validGrades)` filter. -/
structure Record where
  course_code : String
  course : String
  credits : ℕ
  grade : String
  deriving DecidableEq, Repr

/-- The rows that survive the filter `df[df["grade"] != "P"]` at the start of
the `calculate_current_cgpa` method of both files. -/
def eligibles (rs : List Record) : List Record :=
  rs.filter (fun r => countsTowardCGPA r.grade)

/-- Credit-weighted grade points of a record list under a grade-point dict:
`(df_calc["credits"] * df_calc["grade_points"]).sum()`.  A grade missing from
the dict makes `Series.map` produce NaN, which poisons the sum; this is
modelled as `none`. -/
def total_points (gp : List (String × ℚ)) : List Record → Option ℚ
  | [] => some 0
  | r :: rs =>
    match gp.lookup r.grade, total_points gp rs with
    | some p, some s => some ((r.credits : ℚ) * p + s)
    | _, _ => none

/-- Summed credits of a record list: `df_calc["credits"].sum()`. -/
def total_credits (rs : List Record) : ℚ :=
  (rs.map (fun r => (r.credits : ℚ))).sum

/-- The `calculate_current_cgpa` method (`main_advanced.py` lines 104-109,
`1.py` lines 112-122; both compute the same quantity), parameterized by the
grade-point dict of the file.  Excludes P-graded rows, then returns
total points over total credits, and 0.0 when no credits remain. -/
def calculate_current_cgpa (gp : List (String × ℚ)) (rs : List Record) : Option ℚ :=
  (total_points gp (eligibles rs)).map (fun tp =>
    let tc := total_credits (eligibles rs)
    if 0 < tc then tp / tc else 0)

/-- Credits accumulated by the records of one grade:
the sum `df[df["grade"] == grade]["credits"].sum()`. -/
def sg (rs : List Record) (g : String) : ℕ :=
  ((rs.filter (fun r => r.grade = g)).map Record.credits).sum

/-- The `get_grade_distribution` method (`main_advanced.py` lines 111-117):
for each key of the grade-point dict, in dict order, sum the credits of the
records with that grade and keep the grade when the sum is positive. -/
def get_grade_distribution (gp : List (String × ℚ)) (rs : List Record) : Dist :=
  gp.filterMap (fun p =>
    if 0 < sg rs p.1 then some (p.1, (sg rs p.1 : ℚ)) else none)

/-- The credit-weighted point sum of the specification text,
Σ(credits × pointsOf(grade)), with pointsOf read off the spec table. -/
def spec_points_sum (rs : List Record) : ℚ :=
  (rs.map (fun r => (r.credits : ℚ) * specPoints r.grade)).sum

/-- Credit-weighted grade points of a distribution under the dict of
`main_advanced.py`: the generator sum at line 209.  `grade_points[grade]` on a
missing key raises KeyError, modelled as `none`. -/
def dist_points : Dist → Option ℚ
  | [] => some 0
  | p :: d =>
    match grade_points_adv.lookup p.1, dist_points d with
    | some q, some s => some (p.2 * q + s)
    | _, _ => none

/-- The `calculate_cgpa_from_distribution` method of `main_advanced.py`
(lines 208-211). -/
def calculate_cgpa_from_distribution (d : Dist) : Option ℚ :=
  (dist_points d).map (fun tp =>
    let tc := dtotal d
    if 0 < tc then tp / tc else 0)

/-! ## Normalization pipeline: header discovery, titles, dates, dedup -/

/-- Model of Python `str.strip()`: drop whitespace from both ends. -/
def py_strip (s : String) : String :=
  String.mk ((((s.toList.dropWhile Char.isWhitespace).reverse).dropWhile
    Char.isWhitespace).reverse)

/-- Cell preprocessing of the header scan: `str(val).strip()` per cell. -/
def strip_row (row : List String) : List String := row.map py_strip

/-- The header test of `clean_table_data` (both files): the stripped cell
values must contain both literal labels. -/
def is_header_row (row : List String) : Bool :=
  (strip_row row).contains "Course Code" && (strip_row row).contains "Grade"

/-- The header-discovery loop of `clean_table_data`: index of the first row
that passes the header test. -/
def find_header_index : List (List String) → Option ℕ
  | [] => none
  | row :: rest =>
    if is_header_row row then some 0 else (find_header_index rest).map (· + 1)

/-- Error raised when the loop finds no header: the
`raise ValueError("Headers not found")` path of `clean_table_data`. -/
inductive CleanError where
  | headerNotFound
  deriving DecidableEq, Repr

/-- The header phase of `clean_table_data`: locate the header row or fail,
and keep only the rows strictly after it (`df.iloc[header_row_index + 1:]`).
On failure no rows at all are produced. -/
def clean_header_phase (rows : List (List String)) :
    Except CleanError (ℕ × List (List String)) :=
  match find_header_index rows with
  | none => .error .headerNotFound
  | some i => .ok (i, rows.drop (i + 1))

/-- ASCII test used to model the regex class `[^a-z0-9]`. -/
def isLowerAlnum (ch : Char) : Bool :=
  (decide ('a' ≤ ch) && decide (ch ≤ 'z')) || (decide ('0' ≤ ch) && decide (ch ≤ '9'))

/-- The `normalize_course_title` method (both files): lower-case the title and
delete every character outside `[a-z0-9]`. -/
def normalize_course_title (title : String) : String :=
  String.mk ((title.toList.map Char.toLower).filter isLowerAlnum)

/-- The columns of a row that matter to deduplication: the course title and
the (parsed or synthetic) date, the latter modelled as a day number. -/
structure RawRow where
  title : String
  date : ℤ
  deriving DecidableEq, Repr

/-- Model of `pd.date_range(end="today", periods=n, freq="D")` used for
synthetic dates in both files: `n` consecutive day numbers ending at today,
in ascending order, assigned to the rows positionally. -/
def synthetic_dates (today : ℤ) (n : ℕ) : List ℤ :=
  (List.range n).map (fun i : ℕ => today - ((n : ℤ) - 1 - (i : ℤ)))

/-- Model of `df.sort_values(by=sort_col, ascending=False)`: sort the rows by
date, most recent first. -/
def sort_by_date_desc (rows : List RawRow) : List RawRow :=
  rows.insertionSort (fun a b => b.date ≤ a.date)

/-- Model of `df.drop_duplicates(subset="normalized_title", keep="first")`:
walk the rows in order and keep a row only when its normalized title has not
been seen before. -/
def drop_duplicate_titles : List RawRow → List String → List RawRow
  | [], _ => []
  | r :: rs, seen =>
    if seen.contains (normalize_course_title r.title) then
      drop_duplicate_titles rs seen
    else
      r :: drop_duplicate_titles rs (normalize_course_title r.title :: seen)

/-- The deduplication step of `clean_table_data` (both files): sort by date
descending, then drop later occurrences of each normalized title. -/
def dedup_rows (rows : List RawRow) : List RawRow :=
  drop_duplicate_titles (sort_by_date_desc rows) []

/-! ## Heap model of dict identity for the frame claims

Python distributions are mutable dict objects; the simulation methods start
with `new_distribution = distribution.copy()` and assign only into
`new_distribution`.  To state that the caller object is never written, dict
objects live in a heap addressed by `ℕ` and the methods are re-expressed as
heap transformers that allocate the copy at a fresh address. -/

abbrev Heap := List Dist

/-- Read the dict object at an address. -/
def hread (h : Heap) (a : ℕ) : Dist := h.getD a []

/-- Overwrite the dict object at an address. -/
def hwrite (h : Heap) (a : ℕ) (d : Dist) : Heap := h.set a d

/-- The loop of `simulate_improvement` acting on the heap object at address
`b` (the `new_distribution` copy); an iteration that raises leaves the heap as
it was at the start of that iteration. -/
def improve_loop_heap : Heap → ℕ → List (String × String × ℚ) →
    Heap × Except SimError Unit
  | h, _, [] => (h, .ok ())
  | h, b, c :: cs =>
    match improveStep_adv (hread h b) c with
    | .error e => (h, .error e)
    | .ok d => improve_loop_heap (hwrite h b d) b cs

/-- Heap form of `simulate_improvement` of `main_advanced.py`: copy the dict
at `a` into a fresh address `b`, run the loop there, return `b` on success. -/
def simulate_improvement_heap (h : Heap) (a : ℕ)
    (changes : List (String × String × ℚ)) : Heap × Except SimError ℕ :=
  let b := h.length
  let h1 := h ++ [hread h a]
  match improve_loop_heap h1 b changes with
  | (h2, .ok _) => (h2, .ok b)
  | (h2, .error e) => (h2, .error e)

/-- The loop of `simulate_future_courses` acting on the heap object at `b`. -/
def future_loop_heap : Heap → ℕ → List (String × ℚ) →
    Heap × Except SimError Unit
  | h, _, [] => (h, .ok ())
  | h, b, c :: cs =>
    match futureStep_adv (hread h b) c with
    | .error e => (h, .error e)
    | .ok d => future_loop_heap (hwrite h b d) b cs

/-- Heap form of `simulate_future_courses` of `main_advanced.py`. -/
def simulate_future_courses_heap (h : Heap) (a : ℕ)
    (changes : List (String × ℚ)) : Heap × Except SimError ℕ :=
  let b := h.length
  let h1 := h ++ [hread h a]
  match future_loop_heap h1 b changes with
  | (h2, .ok _) => (h2, .ok b)
  | (h2, .error e) => (h2, .error e)

/-! ## Lemmas about the dict model -/

theorem beq_true_of_eq {k a : String} (h : k = a) : (k == a) = true := by
  simpa using h

theorem beq_false_of_ne {k a : String} (h : ¬ k = a) : (k == a) = false := by
  simpa using h

theorem lookup_mem_keys (d : List (String × ℚ)) (k : String) :
    (d.lookup k).isSome = true ↔ k ∈ d.map Prod.fst := by
  rw [List.lookup_isSome_iff]
  simp only [List.mem_map, beq_iff_eq]
  constructor
  · rintro ⟨p, hp, h⟩; exact ⟨p, hp, h.symm⟩
  · rintro ⟨p, hp, h⟩; exact ⟨p, hp, h.symm⟩

theorem lookup_replace_of_mem (d : List (String × ℚ)) (k : String) (v : ℚ)
    (h : (d.lookup k).isSome = true) :
    (d.map (fun p => if p.1 = k then (k, v) else p)).lookup k = some v := by
  induction d with
  | nil => simp at h
  | cons a d ih =>
    obtain ⟨ak, av⟩ := a
    by_cases hk : ak = k
    · subst hk
      simp [List.lookup_cons]
    · have hne : (k == ak) = false := beq_false_of_ne (fun hkk => hk hkk.symm)
      have h' : (d.lookup k).isSome = true := by
        simpa [List.lookup_cons, hne] using h
      simpa [List.lookup_cons, hk, hne] using ih h'

theorem lookup_replace_ne (d : List (String × ℚ)) (k k' : String) (v : ℚ)
    (h : k' ≠ k) :
    (d.map (fun p => if p.1 = k then (k, v) else p)).lookup k' = d.lookup k' := by
  induction d with
  | nil => simp
  | cons a d ih =>
    obtain ⟨ak, av⟩ := a
    by_cases hk : ak = k
    · subst hk
      have hne : (k' == ak) = false := by
        exact beq_false_of_ne h
      simp [List.lookup_cons, hne, beq_false_of_ne h, ih]
    · by_cases hk' : k' = ak
      · simp [List.lookup_cons, hk, beq_true_of_eq hk']
      · simp [List.lookup_cons, hk, beq_false_of_ne hk', ih]

theorem lookup_append_fresh (d : List (String × ℚ)) (k : String) (v : ℚ)
    (h : d.lookup k = none) :
    (d ++ [(k, v)]).lookup k = some v := by
  rw [List.lookup_append, h]
  simp

theorem lookup_append_ne (d : List (String × ℚ)) (k k' : String) (v : ℚ)
    (h : k' ≠ k) :
    (d ++ [(k, v)]).lookup k' = d.lookup k' := by
  rw [List.lookup_append]
  cases hl : d.lookup k' with
  | none => simp [List.lookup_cons, beq_false_of_ne h]
  | some w => simp

theorem dget_dset_self (d : Dist) (k : String) (v : ℚ) :
    dget (dset d k v) k = v := by
  unfold dget dset dmem
  by_cases h : (d.lookup k).isSome = true
  · simp [h, lookup_replace_of_mem d k v h]
  · have hn : d.lookup k = none := by
      cases hl : d.lookup k with
      | none => rfl
      | some w => rw [hl] at h; simp at h
    simp [h, lookup_append_fresh d k v hn]

theorem dget_dset_ne (d : Dist) (k k' : String) (v : ℚ) (h : k' ≠ k) :
    dget (dset d k v) k' = dget d k' := by
  unfold dget dset dmem
  by_cases hm : (d.lookup k).isSome = true
  · simp [hm, lookup_replace_ne d k k' v h]
  · simp [hm, lookup_append_ne d k k' v h]

theorem dkeys_dset (d : Dist) (k : String) (v : ℚ) :
    dkeys (dset d k v) = if dmem d k then dkeys d else dkeys d ++ [k] := by
  unfold dkeys dset
  by_cases hm : dmem d k
  · simp only [hm, if_true, List.map_map]
    refine List.map_congr_left (fun p _ => ?_)
    by_cases hp : p.1 = k <;> simp [hp]
  · simp [hm]

theorem dkeys_nodup_dset (d : Dist) (k : String) (v : ℚ)
    (h : (dkeys d).Nodup) : (dkeys (dset d k v)).Nodup := by
  rw [dkeys_dset]
  by_cases hm : dmem d k
  · simpa [hm] using h
  · have hk : k ∉ dkeys d := by
      intro hmem
      exact hm (by simpa [dmem] using (lookup_mem_keys d k).mpr (by simpa [dkeys] using hmem))
    simp only [hm, if_false]
    simpa [List.nodup_append] using ⟨h, hk⟩

theorem lookup_eq_none_of_not_mem (d : List (String × ℚ)) (k : String)
    (h : k ∉ d.map Prod.fst) : d.lookup k = none := by
  cases hl : d.lookup k with
  | none => rfl
  | some w =>
    exact absurd ((lookup_mem_keys d k).mp (by simp [hl])) h

theorem replace_eq_self_of_not_mem (d : List (String × ℚ)) (k : String) (v : ℚ)
    (h : k ∉ d.map Prod.fst) :
    d.map (fun p => if p.1 = k then (k, v) else p) = d := by
  induction d with
  | nil => rfl
  | cons a d ih =>
    simp only [List.map_cons, List.mem_cons] at h
    push_neg at h
    simp only [List.map_cons]
    rw [if_neg (fun hh : a.1 = k => h.1 hh.symm), ih h.2]

theorem lookup_eq_none_of_dmem_false (d : Dist) (k : String)
    (hm : ¬ dmem d k = true) : d.lookup k = none := by
  cases hl : d.lookup k with
  | none => rfl
  | some w => exact absurd (by simp [dmem, hl]) hm

theorem dtotal_dset (d : Dist) (k : String) (v : ℚ)
    (h : (dkeys d).Nodup) :
    dtotal (dset d k v) = dtotal d - dget d k + v := by
  induction d with
  | nil => simp [dset, dmem, dget, dtotal]
  | cons a d ih =>
    obtain ⟨ak, av⟩ := a
    have htail : (dkeys d).Nodup := (List.nodup_cons.mp h).2
    have hhead : ak ∉ dkeys d := by
      simpa [dkeys] using (List.nodup_cons.mp h).1
    by_cases hk : ak = k
    · subst hk
      have hm : dmem ((ak, av) :: d) ak = true := by
        simp [dmem, List.lookup_cons]
      have hrest : d.map (fun p => if p.1 = ak then (ak, v) else p) = d :=
        replace_eq_self_of_not_mem d ak v (by simpa [dkeys] using hhead)
      have hget : dget ((ak, av) :: d) ak = av := by
        simp [dget, List.lookup_cons]
      simp only [dset, hm, if_true, List.map_cons, if_pos rfl, hrest]
      simp only [dtotal, List.map_cons, List.sum_cons, hget]
      ring
    · have hbe : (k == ak) = false := beq_false_of_ne (fun hkk => hk hkk.symm)
      have hlk : ((ak, av) :: d).lookup k = d.lookup k := by
        simp [List.lookup_cons, hbe]
      have hget : dget ((ak, av) :: d) k = dget d k := by simp [dget, hlk]
      have hmm : dmem ((ak, av) :: d) k = dmem d k := by simp [dmem, hlk]
      by_cases hm : dmem d k
      · have hm' : dmem ((ak, av) :: d) k = true := by rw [hmm]; exact hm
        have ihx := ih htail
        simp only [dset, hm, if_true] at ihx
        simp only [dtotal] at ihx
        simp only [dset, hm', if_true, List.map_cons, if_neg hk, hget]
        simp only [dtotal, List.map_cons, List.sum_cons]
        rw [ihx]; ring
      · have hm' : ¬ dmem ((ak, av) :: d) k = true := by rw [hmm]; exact hm
        have hnone : d.lookup k = none := lookup_eq_none_of_dmem_false d k hm
        have h0 : dget d k = 0 := by simp [dget, hnone]
        have hsd : dset ((ak, av) :: d) k v = (ak, av) :: d ++ [(k, v)] := by
          unfold dset; rw [if_neg hm']
        rw [hsd]
        simp only [dtotal, List.map_append, List.sum_append, List.cons_append,
          List.map_cons, List.sum_cons, List.map_nil, List.sum_nil, hget, h0]
        ring

theorem allNonneg_dget (d : Dist) (k : String) (h : allNonneg d) :
    0 ≤ dget d k := by
  unfold dget
  cases hl : d.lookup k with
  | none => simp
  | some v =>
    have hv : (k, v) ∈ d := by
      rcases List.lookup_eq_some_iff.mp hl with ⟨l₁, l₂, rfl, h₁⟩
      simp
    simpa using h (k, v) hv

theorem allNonneg_dset (d : Dist) (k : String) (v : ℚ)
    (hd : allNonneg d) (hv : 0 ≤ v) : allNonneg (dset d k v) := by
  unfold dset
  by_cases hm : dmem d k
  · rw [if_pos hm]
    intro p hp
    rcases List.mem_map.mp hp with ⟨q, hq, hpq⟩
    by_cases hq1 : q.1 = k
    · simp only [hq1, if_true] at hpq; rw [← hpq]; exact hv
    · simp only [hq1, if_false] at hpq; rw [← hpq]; exact hd q hq
  · rw [if_neg hm]
    intro p hp
    rcases List.mem_append.mp hp with hp | hp
    · exact hd p hp
    · have hpk : p = (k, v) := by simpa using hp
      rw [hpk]; exact hv

/-! ## Claim C5: the grade scale -/

/-- C5 counterexample: the claim says the grade scale is defined on all eight
grades {S,A,B,C,D,E,F,P}, but the `grade_points` dict of `main_advanced.py`
has no entry for P even though P is in the enumerated set. -/
theorem C5_counterexample :
    grade_points_adv.lookup "P" = none ∧ "P" ∈ validGrades := by
  exact ⟨rfl, by decide⟩

/-- C5 (amended): the `grade_points` dict of `1.py` is total over the eight
enumerated grades with values {10,9,8,7,6,5,0,0} and is defined on no other
grade; the dict of `main_advanced.py` carries the same values but covers only
the seven grades other than P, and a lookup succeeds exactly on those seven;
the CGPA-exclusion test holds of every grade except P. -/
theorem C5_grade_scale_amended :
    (∀ g ∈ validGrades, grade_points_v1.lookup g = some (specPoints g)) ∧
    (∀ g : String, (grade_points_v1.lookup g).isSome = true ↔ g ∈ validGrades) ∧
    (∀ g : String, (grade_points_adv.lookup g).isSome = true ↔
      g ∈ ["S", "A", "B", "C", "D", "E", "F"]) ∧
    (∀ g ∈ validGrades, g ≠ "P" → grade_points_adv.lookup g = some (specPoints g)) ∧
    countsTowardCGPA "P" = false ∧
    (∀ g ∈ validGrades, g ≠ "P" → countsTowardCGPA g = true) := by
  refine ⟨?_, ?_, ?_, ?_, rfl, ?_⟩
  · intro g hg
    fin_cases hg <;> rfl
  · intro g
    rw [lookup_mem_keys]
    rfl
  · intro g
    rw [lookup_mem_keys]
    rfl
  · intro g hg hP
    fin_cases hg <;> first | rfl | exact absurd rfl hP
  · intro g hg hP
    fin_cases hg <;> first | rfl | exact absurd rfl hP

/-- C5 witness: the amended scale facts evaluated at the grades A and P. -/
theorem C5_witness :
    grade_points_v1.lookup "A" = some (specPoints "A") ∧
    ((grade_points_adv.lookup "P").isSome = true ↔
      "P" ∈ ["S", "A", "B", "C", "D", "E", "F"]) ∧
    countsTowardCGPA "A" = true := by
  exact ⟨C5_grade_scale_amended.1 "A" (by decide),
    C5_grade_scale_amended.2.2.1 "P",
    C5_grade_scale_amended.2.2.2.2.2 "A" (by decide) (by decide)⟩

/-! ## Claim C6: applyAddition / simulate_future_courses -/

/-- C6 counterexample: the claim says `applyAddition` rejects exactly the
grades outside {S,A,B,C,D,E,F,P}, but `simulate_future_courses` of
`main_advanced.py` rejects P, which is in that set. -/
theorem C6_counterexample :
    "P" ∈ validGrades ∧
    simulate_future_courses_adv [("A", 4)] [("P", 3)] =
      .error (.invalidGrade "P") := by
  exact ⟨by decide, rfl⟩

/-- C6 (amended): `simulate_future_courses` of `main_advanced.py` fails with
the invalid-grade error exactly when the grade is outside the seven grades
{S,A,B,C,D,E,F} of its `grade_points` dict (so grade P is also rejected);
otherwise it succeeds, incrementing that grade's balance by the given credits
and growing the total credits by exactly that amount. -/
theorem C6_applyAddition_amended (d : Dist) (g : String) (c : ℚ)
    (hn : (dkeys d).Nodup) :
    ((grade_points_adv.lookup g).isNone →
      simulate_future_courses_adv d [(g, c)] = .error (.invalidGrade g)) ∧
    ((grade_points_adv.lookup g).isSome →
      simulate_future_courses_adv d [(g, c)] = .ok (dset d g (dget d g + c)) ∧
      dget (dset d g (dget d g + c)) g = dget d g + c ∧
      dtotal (dset d g (dget d g + c)) = dtotal d + c) := by
  constructor
  · intro hnone
    simp [simulate_future_courses_adv, futureStep_adv, hnone]
  · intro hsome
    have hcond : ¬ (grade_points_adv.lookup g).isNone = true := by
      rw [Option.isNone_iff_eq_none]
      intro hx
      rw [hx] at hsome
      simp at hsome
    refine ⟨?_, dget_dset_self d g (dget d g + c), ?_⟩
    · simp [simulate_future_courses_adv, futureStep_adv, hcond]
    · rw [dtotal_dset d g (dget d g + c) hn]
      ring

/-- C6 witness: the amended addition behavior at the spec example, adding 3
credits of grade S to the distribution with 4 credits of A. -/
theorem C6_witness :
    simulate_future_courses_adv [("A", 4)] [("S", 3)] =
      .ok (dset [("A", 4)] "S" (dget [("A", 4)] "S" + 3)) ∧
    dget (dset [("A", 4)] "S" (dget [("A", 4)] "S" + 3)) "S" =
      dget [("A", 4)] "S" + 3 ∧
    dtotal (dset [("A", 4)] "S" (dget [("A", 4)] "S" + 3)) =
      dtotal [("A", 4)] + 3 := by
  exact (C6_applyAddition_amended [("A", 4)] "S" 3 (by decide)).2 (by decide)

/-! ## Claim C4: synthetic dates -/

/-- C4 counterexample: with today = 100 and two rows, the synthetic dates of
the source are [99, 100]: the first row does not receive today, and the dates
do not strictly decrease going forward through the rows. -/
theorem C4_counterexample :
    synthetic_dates 100 2 = [99, 100] ∧
    (synthetic_dates 100 2).getD 0 0 ≠ 100 ∧
    ¬ ((synthetic_dates 100 2).getD 1 0 < (synthetic_dates 100 2).getD 0 0) := by
  refine ⟨?_, by decide, by decide⟩
  decide

/-- Positional value of the synthetic date sequence. -/
theorem synthetic_dates_getD (today : ℤ) (n i : ℕ) (hi : i < n) :
    (synthetic_dates today n).getD i 0 = today - ((n : ℤ) - 1 - (i : ℤ)) := by
  unfold synthetic_dates
  rw [List.getD_eq_getElem?_getD, List.getElem?_map, List.getElem?_range hi]
  rfl

/-- C4 (amended): when no date column resolves, the rows receive consecutive
synthetic dates that end at today: row `i` of `n` receives today minus
`(n-1-i)` days, so the last row receives today and the dates strictly
increase going forward through the row sequence. -/
theorem C4_synthetic_dates_amended (today : ℤ) (n i j : ℕ)
    (hj : j < n) (hij : i < j) :
    (synthetic_dates today n).length = n ∧
    (synthetic_dates today n).getD i 0 = today - ((n : ℤ) - 1 - (i : ℤ)) ∧
    (synthetic_dates today n).getD i 0 < (synthetic_dates today n).getD j 0 ∧
    (synthetic_dates today n).getD (n - 1) 0 = today := by
  have hi : i < n := lt_trans hij hj
  have hn1 : n - 1 < n := by omega
  refine ⟨by simp [synthetic_dates], synthetic_dates_getD today n i hi, ?_, ?_⟩
  · rw [synthetic_dates_getD today n i hi, synthetic_dates_getD today n j hj]
    have : (i : ℤ) < (j : ℤ) := by exact_mod_cast hij
    omega
  · rw [synthetic_dates_getD today n (n - 1) hn1]
    have : ((n - 1 : ℕ) : ℤ) = (n : ℤ) - 1 := by omega
    rw [this]
    ring

/-- C4 witness: the amended date facts at today = 100 with three rows. -/
theorem C4_witness :
    (synthetic_dates 100 3).length = 3 ∧
    (synthetic_dates 100 3).getD 0 0 = 100 - ((3 : ℤ) - 1 - 0) ∧
    (synthetic_dates 100 3).getD 0 0 < (synthetic_dates 100 3).getD 2 0 ∧
    (synthetic_dates 100 3).getD (3 - 1) 0 = 100 := by
  exact C4_synthetic_dates_amended 100 3 0 2 (by norm_num) (by norm_num)

/-! ## Claims C3 and C10: the transfer operation -/

theorem simulate_improvement_adv_single (d : Dist) (c : String × String × ℚ) :
    simulate_improvement_adv d [c] = improveStep_adv d c := by
  unfold simulate_improvement_adv
  cases h : improveStep_adv d c <;>
    simp [List.foldlM_cons, List.foldlM_nil, h]

theorem simulate_future_courses_adv_single (d : Dist) (c : String × ℚ) :
    simulate_future_courses_adv d [c] = futureStep_adv d c := by
  unfold simulate_future_courses_adv
  cases h : futureStep_adv d c <;>
    simp [List.foldlM_cons, List.foldlM_nil, h]

/-- C3 counterexample: the claim says a transfer fails with InvalidGrade only
for grades OUTSIDE the enumerated set, and otherwise proceeds to the balance
check; but in `main_advanced.py` the transfer of 3 of the 5 credits held
under P (which is in the enumerated set) is rejected as an invalid grade. -/
theorem C3_counterexample :
    "P" ∈ validGrades ∧ "A" ∈ validGrades ∧
    (3 : ℚ) ≤ dget [("P", 5)] "P" ∧
    simulate_improvement_adv [("P", 5)] [("P", "A", 3)] =
      .error (.invalidGrades "P" "A") := by
  refine ⟨by decide, by decide, ?_, rfl⟩
  show (3 : ℚ) ≤ 5
  norm_num

/-- C3 (amended): for a POSITIVE requested credit amount,
`simulate_improvement` of `main_advanced.py` fails with the invalid-grade
error exactly when either grade is outside its seven-grade `grade_points`
dict (grade P is thus also rejected); with both grades in the dict it fails
with the insufficient-credits error exactly when the requested credits exceed
the from-balance (an absent from-grade counting as zero), and otherwise
succeeds, decrementing the from-grade by the credits, incrementing the
to-grade by the same credits, and leaving the total credits identical. -/
theorem C3_applyTransfer_amended (d : Dist) (f t : String) (c : ℚ)
    (hc : 0 < c) (hn : (dkeys d).Nodup) :
    (((grade_points_adv.lookup f).isNone ∨ (grade_points_adv.lookup t).isNone) →
        simulate_improvement_adv d [(f, t, c)] = .error (.invalidGrades f t)) ∧
    ((grade_points_adv.lookup f).isSome → (grade_points_adv.lookup t).isSome →
      (dget d f < c →
        simulate_improvement_adv d [(f, t, c)] = .error (.insufficientCredits f)) ∧
      (c ≤ dget d f →
        ∃ d', simulate_improvement_adv d [(f, t, c)] = .ok d' ∧
          dtotal d' = dtotal d ∧
          (f ≠ t → dget d' f = dget d f - c ∧ dget d' t = dget d t + c))) := by
  rw [simulate_improvement_adv_single]
  constructor
  · intro hinv
    unfold improveStep_adv
    rw [if_pos hinv]
  · intro hf ht
    have hinv : ¬ ((grade_points_adv.lookup f).isNone = true ∨
        (grade_points_adv.lookup t).isNone = true) := by
      rintro (h | h)
      · rw [Option.isNone_iff_eq_none] at h; rw [h] at hf; simp at hf
      · rw [Option.isNone_iff_eq_none] at h; rw [h] at ht; simp at ht
    constructor
    · intro hlt
      unfold improveStep_adv
      rw [if_neg hinv, if_pos hlt]
    · intro hle
      have hpos : 0 < dget d f := lt_of_lt_of_le hc hle
      have hmem : dmem d f = true := by
        by_contra hm
        have hx : d.lookup f = none := lookup_eq_none_of_dmem_false d f hm
        rw [dget, hx] at hpos
        simp at hpos
      have hnlt : ¬ (dget d f < c) := not_lt.mpr hle
      refine ⟨dset (dset d f (dget d f - c)) t
          (dget (dset d f (dget d f - c)) t + c), ?_, ?_, ?_⟩
      · unfold improveStep_adv
        rw [if_neg hinv, if_neg hnlt, if_neg (not_not_intro hmem)]
      · have hn1 : (dkeys (dset d f (dget d f - c))).Nodup :=
          dkeys_nodup_dset d f _ hn
        rw [dtotal_dset _ t _ hn1, dtotal_dset d f _ hn]
        ring
      · intro hft
        constructor
        · rw [dget_dset_ne _ t f _ hft, dget_dset_self]
        · rw [dget_dset_self, dget_dset_ne d f t _ (fun h => hft h.symm)]

/-- C3 witness: the amended transfer behavior at the spec example, moving all
6 credits from B to A in the distribution with 6 credits of B and 4 of A. -/
theorem C3_witness :
    ∃ d', simulate_improvement_adv [("B", 6), ("A", 4)] [("B", "A", 6)] = .ok d' ∧
      dtotal d' = dtotal [("B", 6), ("A", 4)] ∧
      ("B" ≠ "A" → dget d' "B" = dget [("B", 6), ("A", 4)] "B" - 6 ∧
        dget d' "A" = dget [("B", 6), ("A", 4)] "A" + 6) := by
  refine ((C3_applyTransfer_amended [("B", 6), ("A", 4)] "B" "A" 6
    (by norm_num) (by decide)).2 (by decide) (by decide)).2 ?_
  show (6 : ℚ) ≤ dget [("B", 6), ("A", 4)] "B"
  norm_num [dget, List.lookup]

/-- C10 counterexample: starting from the all-non-negative distribution with
4 credits of A, the transfer of -5 credits from A to B does not fail in
`main_advanced.py` (there is no positivity check on the amount), and it
produces a distribution holding -5 credits under B. -/
theorem C10_counterexample :
    allNonneg [("A", 4)] ∧
    simulate_improvement_adv [("A", 4)] [("A", "B", -5)] =
      .ok [("A", 9), ("B", -5)] ∧
    ¬ allNonneg [("A", 9), ("B", -5)] := by
  refine ⟨?_, ?_, ?_⟩
  · intro p hp
    rcases List.mem_singleton.mp hp with rfl
    norm_num
  · rw [simulate_improvement_adv_single]
    unfold improveStep_adv
    dsimp only
    rw [if_neg (by decide)]
    rw [if_neg (show ¬ (dget [("A", 4)] "A" < -5) by
      simp [dget, List.lookup_cons_self]; norm_num)]
    rw [if_neg (by decide)]
    simp [dset, dget, dmem, List.lookup, List.lookup_cons_self]
    norm_num
  · intro h
    have := h ("B", -5) (by simp)
    norm_num at this

/-- C10 (amended): every distribution produced by aggregation has all values
non-negative, and for NON-NEGATIVE requested credit amounts the
non-negativity invariant is preserved by every accepted transfer and
addition of `main_advanced.py`. -/
theorem C10_nonneg_amended (d : Dist) (h0 : allNonneg d)
    (f t g : String) (c c' : ℚ) (hc : 0 ≤ c) (hc' : 0 ≤ c') :
    (∀ gp : List (String × ℚ), ∀ rs : List Record,
      allNonneg (get_grade_distribution gp rs)) ∧
    (∀ d', simulate_improvement_adv d [(f, t, c)] = .ok d' → allNonneg d') ∧
    (∀ d', simulate_future_courses_adv d [(g, c')] = .ok d' → allNonneg d') := by
  refine ⟨?_, ?_, ?_⟩
  · intro gp rs p hp
    rcases List.mem_filterMap.mp hp with ⟨q, hq, hsome⟩
    by_cases hpos : 0 < sg rs q.1
    · rw [if_pos hpos] at hsome
      have hpq : p = (q.1, (sg rs q.1 : ℚ)) := (Option.some.inj hsome).symm
      rw [hpq]
      show (0 : ℚ) ≤ ((sg rs q.1 : ℕ) : ℚ)
      exact_mod_cast Nat.zero_le _
    · rw [if_neg hpos] at hsome
      exact absurd hsome (by simp)
  · intro d' h
    rw [simulate_improvement_adv_single] at h
    unfold improveStep_adv at h
    dsimp only at h
    by_cases h1 : (grade_points_adv.lookup f).isNone = true ∨
        (grade_points_adv.lookup t).isNone = true
    · rw [if_pos h1] at h; exact Except.noConfusion h
    · rw [if_neg h1] at h
      by_cases h2 : dget d f < c
      · rw [if_pos h2] at h; exact Except.noConfusion h
      · rw [if_neg h2] at h
        by_cases h3 : ¬ dmem d f = true
        · rw [if_pos h3] at h; exact Except.noConfusion h
        · rw [if_neg h3] at h
          injection h with hd'
          rw [← hd']
          have hle : c ≤ dget d f := not_lt.mp h2
          have h1' : allNonneg (dset d f (dget d f - c)) :=
            allNonneg_dset d f _ h0 (by linarith)
          exact allNonneg_dset _ t _ h1'
            (add_nonneg (allNonneg_dget _ t h1') hc)
  · intro d' h
    rw [simulate_future_courses_adv_single] at h
    unfold futureStep_adv at h
    dsimp only at h
    by_cases h1 : (grade_points_adv.lookup g).isNone = true
    · rw [if_pos h1] at h; exact Except.noConfusion h
    · rw [if_neg h1] at h
      injection h with hd'
      rw [← hd']
      exact allNonneg_dset d g _ h0
        (add_nonneg (allNonneg_dget d g h0) hc')

/-- C10 witness: the amended invariant at the distribution with 4 credits of
A, a transfer of 2 credits from A to B and an addition of 3 credits of S. -/
theorem C10_witness :
    (∀ d', simulate_improvement_adv [("A", 4)] [("A", "B", 2)] = .ok d' →
      allNonneg d') ∧
    (∀ d', simulate_future_courses_adv [("A", 4)] [("S", 3)] = .ok d' →
      allNonneg d') := by
  have h := C10_nonneg_amended [("A", 4)]
    (by intro p hp; rcases List.mem_singleton.mp hp with rfl; norm_num)
    "A" "B" "S" 2 3 (by norm_num) (by norm_num)
  exact ⟨h.2.1, h.2.2⟩

/-! ## Claim C9: header discovery -/

theorem find_header_index_none (rows : List (List String))
    (h : ∀ row ∈ rows, is_header_row row = false) :
    find_header_index rows = none := by
  induction rows with
  | nil => rfl
  | cons row rest ih =>
    have hr : is_header_row row = false := h row (by simp)
    unfold find_header_index
    rw [if_neg (by simp [hr]), ih (fun r hrr => h r (by simp [hrr]))]
    rfl

theorem find_header_index_some (rows : List (List String)) (i : ℕ)
    (h : find_header_index rows = some i) :
    i < rows.length ∧ is_header_row (rows.getD i []) = true ∧
      ∀ j, j < i → is_header_row (rows.getD j []) = false := by
  induction rows generalizing i with
  | nil => simp [find_header_index] at h
  | cons row rest ih =>
    unfold find_header_index at h
    by_cases hr : is_header_row row = true
    · rw [if_pos hr] at h
      rcases Option.some.inj h with rfl
      exact ⟨by simp, by simpa using hr, fun j hj => absurd hj (by omega)⟩
    · rw [if_neg hr] at h
      rcases Option.map_eq_some'.mp h with ⟨i', hi', rfl⟩
      rcases ih i' hi' with ⟨hlen, hhead, hprev⟩
      refine ⟨by simpa using Nat.succ_lt_succ hlen, by simpa using hhead, ?_⟩
      intro j hj
      cases j with
      | zero => simpa using Bool.eq_false_iff.mpr hr
      | succ j' => simpa using hprev j' (by omega)

/-- C9: header discovery of `clean_table_data` selects the first row, in
input order, whose stripped cells contain both the literal label
Course Code and the literal label Grade; when no row anywhere in the input
does, the phase fails with the header-not-found error and produces no rows
at all. -/
theorem C9_header_discovery (rows : List (List String)) :
    ((∀ row ∈ rows, is_header_row row = false) →
      clean_header_phase rows = .error .headerNotFound) ∧
    (∀ i rest, clean_header_phase rows = .ok (i, rest) →
      i < rows.length ∧ is_header_row (rows.getD i []) = true ∧
      (∀ j, j < i → is_header_row (rows.getD j []) = false) ∧
      rest = rows.drop (i + 1)) := by
  constructor
  · intro h
    unfold clean_header_phase
    rw [find_header_index_none rows h]
  · intro i rest h
    unfold clean_header_phase at h
    cases hf : find_header_index rows with
    | none => rw [hf] at h; exact Except.noConfusion h
    | some i' =>
      rw [hf] at h
      injection h with hpair
      have hi : i' = i := congrArg Prod.fst hpair
      have hrest : rest = rows.drop (i + 1) := by
        have := congrArg Prod.snd hpair
        simp at this
        rw [← this, hi]
      subst hi
      rcases find_header_index_some rows i' hf with ⟨h1, h2, h3⟩
      exact ⟨h1, h2, h3, hrest⟩

/-- C9 witness: the header facts at a two-row table whose second row is the
header, and the failure at a table with no header row. -/
theorem C9_witness :
    clean_header_phase [["junk"]] = .error .headerNotFound ∧
    (0 < [[" Course Code ", "Grade"], ["r"]].length ∧
      is_header_row ([[" Course Code ", "Grade"], ["r"]].getD 0 []) = true ∧
      (∀ j, j < 0 → is_header_row ([[" Course Code ", "Grade"], ["r"]].getD j []) = false) ∧
      [["r"]] = [[" Course Code ", "Grade"], ["r"]].drop (0 + 1)) := by
  constructor
  · exact (C9_header_discovery [["junk"]]).1 (by decide)
  · exact (C9_header_discovery [[" Course Code ", "Grade"], ["r"]]).2 0 [["r"]] (by decide)

/-! ## Claim C8: date-descending deduplication -/

theorem dedup_pair (x y : RawRow)
    (hkey : normalize_course_title y.title = normalize_course_title x.title) :
    drop_duplicate_titles [x, y] [] = [x] := by
  unfold drop_duplicate_titles
  rw [if_neg (by simp)]
  unfold drop_duplicate_titles
  rw [if_pos (by simp [hkey])]
  rfl

theorem sort_pair (x y : RawRow) (h : y.date ≤ x.date) :
    sort_by_date_desc [x, y] = [x, y] := by
  unfold sort_by_date_desc
  simp [List.insertionSort, List.orderedInsert, h]

theorem sort_pair_swap (x y : RawRow) (h : ¬ y.date ≤ x.date) :
    sort_by_date_desc [x, y] = [y, x] := by
  unfold sort_by_date_desc
  simp [List.insertionSort, List.orderedInsert, h]

/-- C8: for two rows whose titles normalize equally (lower-casing and
removing non-alphanumerics) and whose dates differ, the sort-descending and
keep-first deduplication of `clean_table_data` keeps exactly the row with
the later date, whichever order the two rows appear in. -/
theorem C8_dedup_keeps_later (r1 r2 : RawRow)
    (hkey : normalize_course_title r1.title = normalize_course_title r2.title)
    (hdate : r1.date ≠ r2.date) :
    dedup_rows [r1, r2] = [if r2.date < r1.date then r1 else r2] ∧
    dedup_rows [r2, r1] = [if r2.date < r1.date then r1 else r2] := by
  rcases lt_or_gt_of_ne hdate with hlt | hgt
  · rw [if_neg (by omega)]
    constructor
    · unfold dedup_rows
      rw [sort_pair_swap r1 r2 (by omega), dedup_pair r2 r1 hkey]
    · unfold dedup_rows
      rw [sort_pair r2 r1 (by omega), dedup_pair r2 r1 hkey]
  · rw [if_pos (by omega)]
    constructor
    · unfold dedup_rows
      rw [sort_pair r1 r2 (by omega), dedup_pair r1 r2 hkey.symm]
    · unfold dedup_rows
      rw [sort_pair_swap r2 r1 (by omega), dedup_pair r1 r2 hkey.symm]

/-- C8 witness: the deduplication at the spec example rows, the titles
Data Structures with punctuation and the same title bare, with dates 5
and 3. -/
theorem C8_witness :
    dedup_rows [RawRow.mk "Data Structures!!" 5, RawRow.mk "data structures" 3] =
      [if (3 : ℤ) < 5 then RawRow.mk "Data Structures!!" 5
       else RawRow.mk "data structures" 3] ∧
    dedup_rows [RawRow.mk "data structures" 3, RawRow.mk "Data Structures!!" 5] =
      [if (3 : ℤ) < 5 then RawRow.mk "Data Structures!!" 5
       else RawRow.mk "data structures" 3] := by
  exact C8_dedup_keeps_later (RawRow.mk "Data Structures!!" 5)
    (RawRow.mk "data structures" 3) (by decide) (by decide)

/-! ## Claim C7: simulation operations never mutate the caller's dict -/

theorem hread_hwrite_ne (h : Heap) (b x : ℕ) (d : Dist) (hx : x ≠ b) :
    hread (hwrite h b d) x = hread h x := by
  unfold hread hwrite
  rw [List.getD_eq_getElem?_getD, List.getD_eq_getElem?_getD,
    List.getElem?_set_ne (fun hbx => hx hbx.symm)]

theorem hread_append_left (h : Heap) (x : ℕ) (d : Dist) (hx : x < h.length) :
    hread (h ++ [d]) x = hread h x := by
  unfold hread
  rw [List.getD_eq_getElem?_getD, List.getD_eq_getElem?_getD,
    List.getElem?_append_left hx]

theorem improve_loop_heap_frame (cs : List (String × String × ℚ)) :
    ∀ (h : Heap) (b x : ℕ), x ≠ b →
      hread (improve_loop_heap h b cs).1 x = hread h x := by
  induction cs with
  | nil => intro h b x hx; rfl
  | cons c cs ih =>
    intro h b x hx
    unfold improve_loop_heap
    cases hs : improveStep_adv (hread h b) c with
    | error e => rfl
    | ok d => rw [ih (hwrite h b d) b x hx, hread_hwrite_ne h b x d hx]

theorem future_loop_heap_frame (cs : List (String × ℚ)) :
    ∀ (h : Heap) (b x : ℕ), x ≠ b →
      hread (future_loop_heap h b cs).1 x = hread h x := by
  induction cs with
  | nil => intro h b x hx; rfl
  | cons c cs ih =>
    intro h b x hx
    unfold future_loop_heap
    cases hs : futureStep_adv (hread h b) c with
    | error e => rfl
    | ok d => rw [ih (hwrite h b d) b x hx, hread_hwrite_ne h b x d hx]

/-- C7: neither simulation method of `main_advanced.py` ever writes to the
caller's dict object: whether the operation chain succeeds or raises midway,
the distribution at the caller's address is exactly what it was before the
call, and a successful call returns a freshly allocated address distinct
from the caller's. -/
theorem C7_no_mutation (h : Heap) (a : ℕ)
    (changes : List (String × String × ℚ)) (fchanges : List (String × ℚ))
    (ha : a < h.length) :
    hread (simulate_improvement_heap h a changes).1 a = hread h a ∧
    (∀ b, (simulate_improvement_heap h a changes).2 = .ok b → a ≠ b) ∧
    hread (simulate_future_courses_heap h a fchanges).1 a = hread h a ∧
    (∀ b, (simulate_future_courses_heap h a fchanges).2 = .ok b → a ≠ b) := by
  have hab : a ≠ h.length := by omega
  refine ⟨?_, ?_, ?_, ?_⟩
  · unfold simulate_improvement_heap
    dsimp only
    cases hl : improve_loop_heap (h ++ [hread h a]) h.length changes with
    | mk h2 r =>
      have hfr := improve_loop_heap_frame changes (h ++ [hread h a]) h.length a hab
      rw [hl] at hfr
      cases r with
      | ok u => simpa [hread_append_left h a (hread h a) ha] using hfr
      | error e => simpa [hread_append_left h a (hread h a) ha] using hfr
  · intro b hb
    unfold simulate_improvement_heap at hb
    dsimp only at hb
    cases hl : improve_loop_heap (h ++ [hread h a]) h.length changes with
    | mk h2 r =>
      rw [hl] at hb
      cases r with
      | ok u =>
        have hlen : h.length = b := by simpa using hb
        omega
      | error e => simp at hb
  · unfold simulate_future_courses_heap
    dsimp only
    cases hl : future_loop_heap (h ++ [hread h a]) h.length fchanges with
    | mk h2 r =>
      have hfr := future_loop_heap_frame fchanges (h ++ [hread h a]) h.length a hab
      rw [hl] at hfr
      cases r with
      | ok u => simpa [hread_append_left h a (hread h a) ha] using hfr
      | error e => simpa [hread_append_left h a (hread h a) ha] using hfr
  · intro b hb
    unfold simulate_future_courses_heap at hb
    dsimp only at hb
    cases hl : future_loop_heap (h ++ [hread h a]) h.length fchanges with
    | mk h2 r =>
      rw [hl] at hb
      cases r with
      | ok u =>
        have hlen : h.length = b := by simpa using hb
        omega
      | error e => simp at hb

/-- C7 witness: the frame facts at a one-object heap, with a failing transfer
chain (insufficient credits) and a succeeding addition chain. -/
theorem C7_witness :
    hread (simulate_improvement_heap [[("B", 3)]] 0 [("B", "A", 5)]).1 0 =
      hread [[("B", 3)]] 0 ∧
    (∀ b, (simulate_improvement_heap [[("B", 3)]] 0 [("B", "A", 5)]).2 = .ok b →
      0 ≠ b) ∧
    hread (simulate_future_courses_heap [[("B", 3)]] 0 [("S", 3)]).1 0 =
      hread [[("B", 3)]] 0 ∧
    (∀ b, (simulate_future_courses_heap [[("B", 3)]] 0 [("S", 3)]).2 = .ok b →
      0 ≠ b) := by
  exact C7_no_mutation [[("B", 3)]] 0 [("B", "A", 5)] [("S", 3)] (by norm_num)

/-! ## Claims C1 and C2: CGPA computation and the two computation paths -/

theorem adv_lookup_spec (g : String) (hg : g ∈ validGrades) (hP : g ≠ "P") :
    grade_points_adv.lookup g = some (specPoints g) := by
  fin_cases hg <;> first | rfl | exact absurd rfl hP

theorem v1_lookup_spec (g : String) (hg : g ∈ validGrades) :
    grade_points_v1.lookup g = some (specPoints g) := by
  fin_cases hg <;> rfl

theorem mem_eligibles (rs : List Record) (r : Record) (hr : r ∈ eligibles rs) :
    r ∈ rs ∧ r.grade ≠ "P" := by
  unfold eligibles at hr
  rcases List.mem_filter.mp hr with ⟨h1, h2⟩
  refine ⟨h1, ?_⟩
  simpa [countsTowardCGPA] using h2

theorem total_points_eq (gp : List (String × ℚ)) (rs : List Record)
    (h : ∀ r ∈ rs, gp.lookup r.grade = some (specPoints r.grade)) :
    total_points gp rs = some (spec_points_sum rs) := by
  induction rs with
  | nil => simp [total_points, spec_points_sum]
  | cons r rs ih =>
    have hr := h r (by simp)
    have ht := ih (fun x hx => h x (by simp [hx]))
    unfold total_points
    rw [hr, ht]
    simp [spec_points_sum]

theorem total_credits_nonneg (rs : List Record) : 0 ≤ total_credits rs := by
  unfold total_credits
  apply List.sum_nonneg
  intro x hx
  rcases List.mem_map.mp hx with ⟨r, _, rfl⟩
  positivity

theorem cgpa_branch_form (x tc : ℚ) (h : 0 ≤ tc) :
    (if 0 < tc then x / tc else 0) = (if tc = 0 then 0 else x / tc) := by
  by_cases h0 : tc = 0
  · subst h0; simp
  · rw [if_neg h0, if_pos (lt_of_le_of_ne h (Ne.symm h0))]

theorem sg_cons (rs : List Record) (r : Record) (g : String) :
    sg (r :: rs) g = (if r.grade = g then r.credits else 0) + sg rs g := by
  unfold sg
  rw [List.filter_cons]
  by_cases h : r.grade = g
  · rw [if_pos (by simpa using h), if_pos h]
    simp
  · rw [if_neg (by simpa using h), if_neg h]
    simp

theorem eligibles_cons (rs : List Record) (r : Record) :
    eligibles (r :: rs) =
      if r.grade = "P" then eligibles rs else r :: eligibles rs := by
  unfold eligibles
  rw [List.filter_cons]
  by_cases h : r.grade = "P"
  · rw [if_neg (by simp [countsTowardCGPA, h]), if_pos h]
  · rw [if_pos (by simp [countsTowardCGPA, h]), if_neg h]

theorem spec_points_sum_cons (rs : List Record) (r : Record) :
    spec_points_sum (r :: rs) =
      (r.credits : ℚ) * specPoints r.grade + spec_points_sum rs := by
  simp [spec_points_sum]

theorem total_credits_cons (rs : List Record) (r : Record) :
    total_credits (r :: rs) = (r.credits : ℚ) + total_credits rs := by
  simp [total_credits]

theorem group_sums (rs : List Record)
    (hg : ∀ r ∈ rs, r.grade ∈ validGrades) :
    ((grade_points_adv.map (fun p => (sg rs p.1 : ℚ) * p.2)).sum =
      spec_points_sum (eligibles rs)) ∧
    ((grade_points_adv.map (fun p => (sg rs p.1 : ℚ))).sum =
      total_credits (eligibles rs)) := by
  induction rs with
  | nil =>
    constructor <;>
      simp [sg, spec_points_sum, total_credits, eligibles, grade_points_adv]
  | cons r rs ih =>
    have hgr : r.grade ∈ validGrades := hg r (by simp)
    have ihx := ih (fun x hx => hg x (List.mem_cons_of_mem r hx))
    simp only [grade_points_adv, List.map_cons, List.map_nil, List.sum_cons,
      List.sum_nil] at ihx ⊢
    simp only [validGrades, List.mem_cons, List.not_mem_nil, or_false] at hgr
    rcases hgr with h | h | h | h | h | h | h | h <;>
      (first
        | rw [eligibles_cons, if_pos h]
        | rw [eligibles_cons, if_neg (by rw [h]; decide)]) <;>
      constructor <;>
      (simp [sg_cons, h, spec_points_sum_cons, total_credits_cons, specPoints]
       linarith [ihx.1, ihx.2])

/-- C2: the `calculate_current_cgpa` method of both source files excludes
P-graded records, returns the credit-weighted point sum of the remaining
records divided by their total credits, and returns exactly zero (not an
error) when the remaining records carry zero total credits. -/
theorem C2_computeCGPA (rs : List Record)
    (hg : ∀ r ∈ rs, r.grade ∈ validGrades) :
    calculate_current_cgpa grade_points_adv rs =
      some (if total_credits (eligibles rs) = 0 then 0
            else spec_points_sum (eligibles rs) / total_credits (eligibles rs)) ∧
    calculate_current_cgpa grade_points_v1 rs =
      some (if total_credits (eligibles rs) = 0 then 0
            else spec_points_sum (eligibles rs) / total_credits (eligibles rs)) := by
  have hadv : ∀ r ∈ eligibles rs,
      grade_points_adv.lookup r.grade = some (specPoints r.grade) := by
    intro r hr
    rcases mem_eligibles rs r hr with ⟨h1, h2⟩
    exact adv_lookup_spec r.grade (hg r h1) h2
  have hv1 : ∀ r ∈ eligibles rs,
      grade_points_v1.lookup r.grade = some (specPoints r.grade) := by
    intro r hr
    rcases mem_eligibles rs r hr with ⟨h1, _⟩
    exact v1_lookup_spec r.grade (hg r h1)
  constructor <;>
  · unfold calculate_current_cgpa
    rw [total_points_eq _ _ (by assumption)]
    rw [Option.map_some']
    rw [cgpa_branch_form _ _ (total_credits_nonneg (eligibles rs))]

/-- C2 witness: the CGPA formula at the spec end-to-end example, records
with 4 credits of A, 3 of B, and 4 of P. -/
theorem C2_witness :
    calculate_current_cgpa grade_points_adv
      [Record.mk "c1" "x" 4 "A", Record.mk "c2" "y" 3 "B", Record.mk "c3" "z" 4 "P"] =
      some (if total_credits (eligibles
          [Record.mk "c1" "x" 4 "A", Record.mk "c2" "y" 3 "B", Record.mk "c3" "z" 4 "P"]) = 0
        then 0
        else spec_points_sum (eligibles
            [Record.mk "c1" "x" 4 "A", Record.mk "c2" "y" 3 "B", Record.mk "c3" "z" 4 "P"]) /
          total_credits (eligibles
            [Record.mk "c1" "x" 4 "A", Record.mk "c2" "y" 3 "B", Record.mk "c3" "z" 4 "P"])) := by
  exact (C2_computeCGPA
    [Record.mk "c1" "x" 4 "A", Record.mk "c2" "y" 3 "B", Record.mk "c3" "z" 4 "P"]
    (by decide)).1

theorem dist_points_build (rs : List Record) :
    ∀ gp2 : List (String × ℚ),
      (∀ p ∈ gp2, grade_points_adv.lookup p.1 = some p.2) →
      dist_points (gp2.filterMap (fun p =>
          if 0 < sg rs p.1 then some (p.1, (sg rs p.1 : ℚ)) else none)) =
        some ((gp2.map (fun p => (sg rs p.1 : ℚ) * p.2)).sum) ∧
      dtotal (gp2.filterMap (fun p =>
          if 0 < sg rs p.1 then some (p.1, (sg rs p.1 : ℚ)) else none)) =
        (gp2.map (fun p => (sg rs p.1 : ℚ))).sum := by
  intro gp2
  induction gp2 with
  | nil =>
    intro _
    exact ⟨by simp [dist_points], by simp [dtotal]⟩
  | cons p gp2 ih =>
    intro h
    have hp := h p (by simp)
    have iht := ih (fun q hq => h q (by simp [hq]))
    by_cases hpos : 0 < sg rs p.1
    · have hfm : (p :: gp2).filterMap (fun q =>
          if 0 < sg rs q.1 then some (q.1, (sg rs q.1 : ℚ)) else none) =
          (p.1, (sg rs p.1 : ℚ)) :: gp2.filterMap (fun q =>
            if 0 < sg rs q.1 then some (q.1, (sg rs q.1 : ℚ)) else none) := by
        rw [List.filterMap_cons_some]
        rw [if_pos hpos]
      rw [hfm]
      constructor
      · unfold dist_points
        rw [hp, iht.1]
        simp
      · simp only [dtotal, List.map_cons, List.sum_cons] at iht ⊢
        rw [iht.2]
    · have hz : (sg rs p.1 : ℚ) = 0 := by
        have : sg rs p.1 = 0 := by omega
        rw [this]; norm_num
      have hfm : (p :: gp2).filterMap (fun q =>
          if 0 < sg rs q.1 then some (q.1, (sg rs q.1 : ℚ)) else none) =
          gp2.filterMap (fun q =>
            if 0 < sg rs q.1 then some (q.1, (sg rs q.1 : ℚ)) else none) := by
        rw [List.filterMap_cons_none]
        rw [if_neg hpos]
      rw [hfm]
      constructor
      · rw [iht.1]
        simp [hz]
      · rw [iht.2]
        simp [hz]

/-- C1: for every record sequence of valid grades, computing the CGPA from
the distribution snapshot (`calculate_cgpa_from_distribution` after
`get_grade_distribution`) gives exactly the value of the direct computation
(`calculate_current_cgpa`), grade P being excluded on both paths. -/
theorem C1_paths_agree (rs : List Record)
    (hg : ∀ r ∈ rs, r.grade ∈ validGrades) :
    calculate_cgpa_from_distribution
        (get_grade_distribution grade_points_adv rs) =
      calculate_current_cgpa grade_points_adv rs := by
  have hadv : ∀ r ∈ eligibles rs,
      grade_points_adv.lookup r.grade = some (specPoints r.grade) := by
    intro r hr
    rcases mem_eligibles rs r hr with ⟨h1, h2⟩
    exact adv_lookup_spec r.grade (hg r h1) h2
  have htp := total_points_eq grade_points_adv (eligibles rs) hadv
  have hkeys : ∀ p ∈ grade_points_adv,
      grade_points_adv.lookup p.1 = some p.2 := by
    intro p hp
    fin_cases hp <;> rfl
  have hbuild := dist_points_build rs grade_points_adv hkeys
  have hgs := group_sums rs hg
  unfold calculate_cgpa_from_distribution calculate_current_cgpa
    get_grade_distribution
  rw [htp, hbuild.1, hbuild.2, hgs.1, hgs.2]

/-- C1 witness: the two computation paths agree at the spec end-to-end
example, records with 4 credits of A, 3 of B, and 4 of P. -/
theorem C1_witness :
    calculate_cgpa_from_distribution (get_grade_distribution grade_points_adv
      [Record.mk "c1" "x" 4 "A", Record.mk "c2" "y" 3 "B", Record.mk "c3" "z" 4 "P"]) =
    calculate_current_cgpa grade_points_adv
      [Record.mk "c1" "x" 4 "A", Record.mk "c2" "y" 3 "B", Record.mk "c3" "z" 4 "P"] := by
  exact C1_paths_agree
    [Record.mk "c1" "x" 4 "A", Record.mk "c2" "y" 3 "B", Record.mk "c3" "z" 4 "P"]
    (by decide)

end VitGpa
